import Mathlib

/-!
Shallow embedding of the affinity-manager core (src/affinity_manager.py).

The embedding covers the parts of the program the verified claims are about:
`get_cpu_info` (topology inference), the single-pass process scan
(`discover_all_processes_single_pass`), the full catch-all scan
(`find_other_processes`), the per-process affinity applier
(`set_affinity_with_debug`), the validator (`validate_other_affinity`),
the `CoreSelector` default selection, and the `on_apply` flow of
`AffinityManagerApp` as a pure state transformer.

Environment inputs that the Python code reads from the OS (psutil counts,
the process table, the current user, exception behaviour of live process
handles) are passed as explicit parameters.  Machine integers are modelled
as `Nat`/`Int` (Python ints are unbounded, so no wrap-around is needed);
the two floating-point comparisons of the source (`cpu_percent > 0.5` and
`threads / len(cores) > 300`) are modelled with exact rational arithmetic.
-/

set_option maxHeartbeats 1000000

/-- Result record of `get_cpu_info` (src/affinity_manager.py:103-112).
The count fields are Python ints, which can go negative on some inputs,
so they are modelled as `Int`; `core_types` holds one `'P'`/`'E'` label
per logical core. -/
structure CpuInfo where
  logical : Nat
  physical : Nat
  p_cores : Int
  e_cores : Int
  p_count : Int
  e_count : Int
  core_types : List Char
  threads_per_core : Nat
deriving Repr, DecidableEq

/-- Embedding of `get_cpu_info` (src/affinity_manager.py:72-112), with the
two `psutil.cpu_count` calls replaced by the explicit inputs `logical` and
`physical`.  `pe` bundles `(p_cores, e_cores, p_count, e_count)` as computed
by the if/else ladder of the source. -/
def get_cpu_info (logical physical : Nat) : CpuInfo :=
  let threads_per_core : Nat := if physical ≠ 0 then max 1 (logical / physical) else 1
  let pe : Int × Int × Int × Int :=
    if physical < logical then
      if 10 ≤ physical then
        let ht_threads : Int := (logical : Int) - (physical : Int)
        (ht_threads, (physical : Int) - ht_threads, ht_threads * 2,
          (physical : Int) - ht_threads)
      else ((physical : Int), 0, (logical : Int), 0)
    else ((physical : Int), 0, (logical : Int), 0)
  { logical := logical
    physical := physical
    p_cores := pe.1
    e_cores := pe.2.1
    p_count := pe.2.2.1
    e_count := pe.2.2.2
    core_types :=
      (List.range logical).map (fun (i : Nat) => if (i : Int) < pe.2.2.1 then 'P' else 'E')
    threads_per_core := threads_per_core }

/-- Selection state of a `CoreSelector` widget (src/affinity_manager.py:259-296).
Only the data relevant to core selection is kept: the core count and the
inclusive selection bounds.  The `end` attribute of the source is rendered
as `end_` because `end` is a Lean keyword. -/
structure CoreSelector where
  total_cores : Nat
  start : Nat
  end_ : Nat
deriving Repr, DecidableEq

/-- Default selection established by `CoreSelector.__init__`
(src/affinity_manager.py:271-273): `start = 0`, `end = total_cores - 1`.
Every selector the app builds — one per active group and the one for the
catch-all "Other" row — is constructed exactly like this. -/
def CoreSelector.init (cpu_info : CpuInfo) : CoreSelector :=
  { total_cores := cpu_info.logical, start := 0, end_ := cpu_info.logical - 1 }

/-- Embedding of `CoreSelector.get_cores` (src/affinity_manager.py:420-422):
`list(range(self.start, self.end + 1))`. -/
def CoreSelector.get_cores (s : CoreSelector) : List Nat :=
  List.range' s.start (s.end_ + 1 - s.start)

/-- Python `str.lower()` modelled character-wise (ASCII lowering), since the
names and patterns handled by the program are ASCII. -/
def pyLower (s : String) : String :=
  String.mk (s.data.map Char.toLower)

/-- Python substring test `pat in hay` on character lists: true iff `pat`
occurs contiguously inside `hay`. -/
def subAux (pat : List Char) : List Char → Bool
  | [] => pat.isEmpty
  | c :: rest => pat.isPrefixOf (c :: rest) || subAux pat rest

/-- Python `pat in hay` for strings. -/
def strIn (pat hay : String) : Bool :=
  subAux pat.data hay.data

/-- The `KNOWN_PATTERNS` table (src/affinity_manager.py:31-35).  Python dicts
iterate in insertion order, so the table is an ordered association list. -/
def KNOWN_PATTERNS : List (String × List String) :=
  [("Minecraft", ["javaw", "java", "lunar", "badlion", "feather"]),
   ("Discord", ["discord"]),
   ("OBS", ["obs64", "obs32", "obs-browser"])]

/-- The `SKIP_ALWAYS` exclusion set (src/affinity_manager.py:37-43). -/
def SKIP_ALWAYS : List String :=
  ["system", "system idle process", "idle", "registry", "memcompression",
   "memory compression", "smss.exe", "csrss.exe", "wininit.exe",
   "services.exe", "lsass.exe", "winlogon.exe", "dwm.exe",
   "fontdrvhost.exe", "sihost.exe", "startmenuexperiencehost.exe",
   "shellexperiencehost.exe", "searchui.exe", "searchapp.exe",
   "runtimebroker.exe", "ctfmon.exe", "audiodg.exe", "mc-fw-host.exe",
   "affinity_manager.exe"]

/-- The `MAX_THREADS_PER_CORE` warning threshold (src/affinity_manager.py:46). -/
def MAX_THREADS_PER_CORE : Nat := 300

/-- Behaviour of a live psutil process handle when `proc.cpu_affinity(cores)`
is called on it at apply time: either the call succeeds or it raises one of
the exceptions handled by `set_affinity_with_debug`. -/
inductive ApplyBehavior where
  | ok
  | noSuchProcess
  | accessDenied
  | osError (msg : String)
  | otherExc (excType excMsg : String)
deriving Repr, DecidableEq

/-- One entry of the OS process table as seen through
`psutil.process_iter` (src/affinity_manager.py:130, 187): the `proc.info`
fields read by the scans, plus `access_fails` (the process raises
`NoSuchProcess`/`AccessDenied` while being inspected, so the scan skips it)
and `setBehavior` (what the live handle does at apply time). -/
structure RawProc where
  pid : Nat
  name : Option String
  num_threads : Nat
  cpu_affinity : List Nat
  cpu_percent : Option ℚ
  username : Option String
  access_fails : Bool
  setBehavior : ApplyBehavior
deriving Repr, DecidableEq

/-- The `proc_data` dict built by `discover_all_processes_single_pass`
(src/affinity_manager.py:138-145).  The `proc` field keeps the live handle,
as the source does. -/
structure ProcData where
  pid : Nat
  name : String
  threads : Nat
  cores : List Nat
  cpu_percent : ℚ
  proc : RawProc
deriving Repr, DecidableEq

/-- Conversion of a scanned raw process into `proc_data`
(src/affinity_manager.py:138-145); `proc.info.get('cpu_percent', 0) or 0`
is modelled by defaulting a missing value to `0`. -/
def mkProcData (q : RawProc) : ProcData :=
  { pid := q.pid, name := q.name.getD "", threads := q.num_threads,
    cores := q.cpu_affinity, cpu_percent := q.cpu_percent.getD 0, proc := q }

/-- The process dict built by `find_other_processes`
(src/affinity_manager.py:201-207); it has no `cpu_percent` field. -/
structure OtherProc where
  pid : Nat
  name : String
  threads : Nat
  cores : List Nat
  proc : RawProc
deriving Repr, DecidableEq

/-- Conversion of a raw process into the dict kept by
`find_other_processes` (src/affinity_manager.py:201-207). -/
def mkOtherProc (q : RawProc) : OtherProc :=
  { pid := q.pid, name := q.name.getD "", threads := q.num_threads,
    cores := q.cpu_affinity, proc := q }

/-- Lowercased process name, `(proc.info['name'] or '').lower()`. -/
def nameLower (q : RawProc) : String :=
  pyLower (q.name.getD "")

/-- Python truthiness of an optional string: `None` and `''` are falsy. -/
def truthy : Option String → Bool
  | none => false
  | some s => !(s == "")

/-- Pattern test for one category entry: `any(p.lower() in name_lower for p
in patterns)` (src/affinity_manager.py:150). -/
def matchesCat (name_lower : String) (entry : String × List String) : Bool :=
  entry.2.any (fun p => strIn (pyLower p) name_lower)

/-- First-match classification: the `for category, patterns in
KNOWN_PATTERNS.items()` loop with `break` (src/affinity_manager.py:148-153)
returns the first category, in declaration order, with a matching pattern. -/
def classify1 (table : List (String × List String)) (name_lower : String) :
    Option String :=
  (table.find? (matchesCat name_lower)).map (fun e => e.1)

/-- The ownership `continue` condition `current_user and
proc.info.get('username') and proc.info['username'].lower() !=
current_user.lower()` (src/affinity_manager.py:157-159, 198). -/
def ownershipSkip (current_user username : Option String) : Bool :=
  truthy current_user && truthy username &&
    !(pyLower (username.getD "") == pyLower (current_user.getD ""))

/-- Visibility filter at the top of the single-pass scan loop
(src/affinity_manager.py:131-136): the record is skipped when inspecting it
raised, when its name is empty, or when it is the caller's own process. -/
def scanVisible (my_pid : Nat) (q : RawProc) : Bool :=
  !q.access_fails && !(nameLower q == "") && !(q.pid == my_pid)

/-- Per-category result lists of `discover_all_processes_single_pass`
(src/affinity_manager.py:126, 147-153): category `name` collects, in scan
order, the visible processes whose first matching category is `name`. -/
def discoverResults (table : List (String × List String)) (my_pid : Nat)
    (procs : List RawProc) : List (String × List ProcData) :=
  table.map (fun e => (e.1,
    procs.filterMap (fun q =>
      if scanVisible my_pid q && (classify1 table (nameLower q) == some e.1)
      then some (mkProcData q) else none)))

/-- Candidate condition for the top-CPU pick
(src/affinity_manager.py:155-162): visible, matched by no category, not in
the exclusion set, not skipped by the ownership filter, and with
`cpu_percent > 0.5`. -/
def candidateKeep (table : List (String × List String)) (skip : List String)
    (current_user : Option String) (my_pid : Nat) (q : RawProc) : Bool :=
  scanVisible my_pid q && (classify1 table (nameLower q) == none) &&
    !(skip.contains (nameLower q)) &&
    !(ownershipSkip current_user q.username) &&
    decide (mkRat 1 2 < q.cpu_percent.getD 0)

/-- The `top_cpu_candidates` list of the single-pass scan
(src/affinity_manager.py:127, 155-162), in scan order. -/
def topCpuCandidates (table : List (String × List String)) (skip : List String)
    (current_user : Option String) (my_pid : Nat) (procs : List RawProc) :
    List ProcData :=
  procs.filterMap (fun q =>
    if candidateKeep table skip current_user my_pid q
    then some (mkProcData q) else none)

/-- The top-CPU pick (src/affinity_manager.py:169-172): the candidates
sorted by `cpu_percent` descending (Python's `sorted` is stable, as is
`mergeSort`), truncated to at most one element. -/
def topCpu (cands : List ProcData) : List ProcData :=
  if cands.isEmpty then []
  else (cands.mergeSort (fun a b => decide (b.cpu_percent ≤ a.cpu_percent))).take 1

/-- Embedding of `discover_all_processes_single_pass`
(src/affinity_manager.py:114-175): the per-category result lists and the
top-CPU pick.  `current_user` is `psutil.Process(os.getpid()).username()`,
or `none` if that raised; `my_pid` is `os.getpid()`; `procs` is the process
table enumerated by `psutil.process_iter`. -/
def discover_all_processes_single_pass (table : List (String × List String))
    (skip : List String) (current_user : Option String) (my_pid : Nat)
    (procs : List RawProc) : List (String × List ProcData) × List ProcData :=
  (discoverResults table my_pid procs,
   topCpu (topCpuCandidates table skip current_user my_pid procs))

/-- Keep condition of the `find_other_processes` loop
(src/affinity_manager.py:188-199): not raising, pid not among the known
pids, name non-empty and not in the exclusion set, and not skipped by the
ownership filter.  Note the loop has no check against the caller's own pid. -/
def keepOther (skip : List String) (current_user : Option String)
    (known_pids : List Nat) (q : RawProc) : Bool :=
  !q.access_fails && !(known_pids.contains q.pid) &&
    !(nameLower q == "") && !(skip.contains (nameLower q)) &&
    !(ownershipSkip current_user q.username)

/-- Embedding of `find_other_processes` (src/affinity_manager.py:177-211). -/
def find_other_processes (skip : List String) (current_user : Option String)
    (known_pids : List Nat) (procs : List RawProc) : List OtherProc :=
  procs.filterMap (fun q =>
    if keepOther skip current_user known_pids q
    then some (mkOtherProc q) else none)

/-- One result dict of `set_affinity_with_debug`
(src/affinity_manager.py:219-252). -/
structure ApplyResult where
  pid : Nat
  name : String
  success : Bool
  error : Option String
deriving Repr, DecidableEq

/-- Error message of the `psutil.NoSuchProcess` branch
(src/affinity_manager.py:230). -/
def MSG_GONE : String := "Process no longer exists"

/-- Error message of the `psutil.AccessDenied` branch
(src/affinity_manager.py:237). -/
def MSG_DENIED : String :=
  "Access denied - may need higher privileges or process is protected"

/-- One iteration of the `set_affinity_with_debug` loop
(src/affinity_manager.py:216-252): the try/except ladder mapping the
outcome of `p['proc'].cpu_affinity(cores)` to a result dict. -/
def applyOne (p : ProcData) : ApplyResult :=
  match p.proc.setBehavior with
  | ApplyBehavior.ok =>
      { pid := p.pid, name := p.name, success := true, error := none }
  | ApplyBehavior.noSuchProcess =>
      { pid := p.pid, name := p.name, success := false, error := some MSG_GONE }
  | ApplyBehavior.accessDenied =>
      { pid := p.pid, name := p.name, success := false, error := some MSG_DENIED }
  | ApplyBehavior.osError e =>
      { pid := p.pid, name := p.name, success := false,
        error := some ("OS Error: " ++ e) }
  | ApplyBehavior.otherExc ty m =>
      { pid := p.pid, name := p.name, success := false,
        error := some (ty ++ ": " ++ m) }

/-- Embedding of `set_affinity_with_debug` (src/affinity_manager.py:213-253):
every process in the batch is attempted, independently of earlier failures,
and yields exactly one result.  The `cores` and `app_name` arguments do not
influence the returned list (the OS-level effect of the successful calls is
modelled separately by `setAffinityOS`). -/
def set_affinity_with_debug (procs : List ProcData) (cores : List Nat)
    (app_name : String) : List ApplyResult :=
  procs.map applyOne

/-- Kind of warning issued by `validate_other_affinity`; the source returns
two distinct message strings, abstracted here to their kinds. -/
inductive WarningKind where
  | starvation
  | contention
deriving Repr, DecidableEq

/-- The `has_p_core` test of `validate_other_affinity`
(src/affinity_manager.py:718): `any(core_types[c] == 'P' for c in cores)`.
Indexing is total in the model (out-of-range defaults to `'E'`); the app
only passes in-range core ids, clamped by the selector. -/
def has_p_core (ci : CpuInfo) (cores : List Nat) : Bool :=
  cores.any (fun c => ci.core_types.getD c 'E' == 'P')

/-- Embedding of `validate_other_affinity` (src/affinity_manager.py:712-733).
Returns `(valid?, warning)`.  The float ratio `threads / len(cores)` is
modelled by the exact rational `mkRat threads cores.length`; the guard
`if len(cores) > 0 else 0` of the source is kept.  The function reads its
inputs and mutates nothing, exactly like the source. -/
def validate_other_affinity (ci : CpuInfo) (cores : List Nat) (threads : Nat) :
    Bool × Option WarningKind :=
  if cores.isEmpty then (true, none)
  else if !(has_p_core ci cores) && decide (0 < ci.p_count) then
    (false, some WarningKind.starvation)
  else
    let threads_per_core : ℚ :=
      if 0 < cores.length then mkRat threads cores.length else 0
    if decide ((MAX_THREADS_PER_CORE : ℚ) < threads_per_core) then
      (false, some WarningKind.contention)
    else (true, none)

/-- One entry of `self.active_groups` (src/affinity_manager.py:457, 500):
a group name mapped to `(patterns, procs, selector, label)`; the tkinter
label carries no engine state and is dropped. -/
structure ActiveGroup where
  name : String
  patterns : List String
  procs : List ProcData
  selector : CoreSelector
deriving Repr, DecidableEq

/-- The application state read and written by `on_apply`
(src/affinity_manager.py:735-792), together with `os_affinity`, an explicit
model of the OS-level scheduling masks (pid ↦ affinity mask) that the
successful `cpu_affinity(cores)` calls mutate. -/
structure AppState where
  cpu_info : CpuInfo
  other_discovery_done : Bool
  active_groups : List ActiveGroup
  other_procs : List OtherProc
  other_selector : CoreSelector
  os_affinity : List (Nat × List Nat)
deriving Repr, DecidableEq

/-- Pids of an active group's batch whose `cpu_affinity` call succeeds. -/
def okPids (procs : List ProcData) : List Nat :=
  procs.filterMap (fun p =>
    if p.proc.setBehavior == ApplyBehavior.ok then some p.pid else none)

/-- Pids of the catch-all batch whose `cpu_affinity` call succeeds. -/
def okPidsOther (procs : List OtherProc) : List Nat :=
  procs.filterMap (fun p =>
    if p.proc.setBehavior == ApplyBehavior.ok then some p.pid else none)

/-- OS-level effect of one `set_affinity_with_debug` batch: every pid whose
call succeeded has its scheduling mask set to `cores`; all other masks are
untouched (src/affinity_manager.py:218). -/
def setAffinityOS (os : List (Nat × List Nat)) (pids : List Nat)
    (cores : List Nat) : List (Nat × List Nat) :=
  os.map (fun e => if pids.contains e.1 then (e.1, cores) else e)

/-- The `for name, (...) in self.active_groups.items()` loop of `on_apply`
(src/affinity_manager.py:744-757): each group with a non-empty batch and a
non-empty selection is applied, in order, with no validation. -/
def applyActiveGroups (os : List (Nat × List Nat)) (groups : List ActiveGroup) :
    List (Nat × List Nat) :=
  groups.foldl (fun acc g =>
    if !g.procs.isEmpty && !g.selector.get_cores.isEmpty then
      setAffinityOS acc (okPids g.procs) g.selector.get_cores
    else acc) os

/-- Aggregate thread count of the catch-all batch,
`sum(p['threads'] for p in self.other_procs)` (src/affinity_manager.py:762). -/
def sumOtherThreads (procs : List OtherProc) : Nat :=
  (procs.map (fun p => p.threads)).sum

/-- Embedding of `AffinityManagerApp.on_apply` (src/affinity_manager.py:735-792)
as a state transformer.  `confirm` is the operator's answer to the warning
dialog, read only when the validator reports the "Other" selection invalid.
Control flow of the source: an early return when the background discovery
has not finished; then the active groups are applied unconditionally; then
the "Other" selection is validated and, if the operator cancels, the
function returns — with the active groups' masks already mutated. -/
def on_apply (st : AppState) (confirm : Bool) : AppState :=
  if !st.other_discovery_done then st
  else
    let os1 := applyActiveGroups st.os_affinity st.active_groups
    if !st.other_procs.isEmpty then
      let cores := st.other_selector.get_cores
      let v := validate_other_affinity st.cpu_info cores
        (sumOtherThreads st.other_procs)
      if !v.1 && !confirm then { st with os_affinity := os1 }
      else if !cores.isEmpty then
        { st with os_affinity := setAffinityOS os1 (okPidsOther st.other_procs) cores }
      else { st with os_affinity := os1 }
    else { st with os_affinity := os1 }

/-- Fixture: a Minecraft-matching process whose affinity call succeeds. -/
def rawJavaw : RawProc :=
  ⟨100, some "javaw.exe", 30, [0, 1], some 3, some "me", false, ApplyBehavior.ok⟩

/-- Fixture: a Minecraft-matching process that exits between scan and apply,
so its affinity call raises `NoSuchProcess`. -/
def rawJavaGone : RawProc :=
  ⟨101, some "java.exe", 20, [0, 1], some 2, some "me", false,
    ApplyBehavior.noSuchProcess⟩

/-- Fixture: an unexceptional user-owned background process. -/
def rawNotepad : RawProc :=
  ⟨200, some "notepad.exe", 10, [0, 1], some 1, some "me", false, ApplyBehavior.ok⟩

/-- Fixture: a process owned by a different resolvable identity. -/
def rawForeign : RawProc :=
  ⟨300, some "svc.exe", 5, [0, 1], some 4, some "THEM", false, ApplyBehavior.ok⟩

/-- Fixture: the caller's own process when the tool runs as `python.exe`
(pid 42): its name is not in `SKIP_ALWAYS`. -/
def rawSelfPy : RawProc :=
  ⟨42, some "python.exe", 7, [0, 1], some 1, some "me", false, ApplyBehavior.ok⟩

/-- Fixture: a process whose name matches both the Minecraft pattern
`"javaw"` and the Discord pattern `"discord"`. -/
def rawJD : RawProc :=
  ⟨77, some "javaw discord.exe", 9, [0], some 1, some "me", false, ApplyBehavior.ok⟩

/-- Fixture: an application state on topology `(24, 16)` with one active
group (one Minecraft process, selection `[0, 15]`) and one catch-all
process, whose "Other" selection `[16, 16]` is a pure efficiency-core
range and hence triggers the starvation warning. -/
def demoState : AppState :=
  { cpu_info := get_cpu_info 24 16
    other_discovery_done := true
    active_groups :=
      [⟨"Minecraft", ["javaw", "java", "lunar", "badlion", "feather"],
        [mkProcData rawJavaw], ⟨24, 0, 15⟩⟩]
    other_procs := [mkOtherProc rawNotepad]
    other_selector := ⟨24, 16, 16⟩
    os_affinity := [(100, List.range 24), (200, List.range 24)] }

/-! Helper lemmas and claim theorems. -/

/-- Members of a guarded `filterMap` come from list members passing the
guard. -/
theorem mem_if_filterMap {β : Type} (g : RawProc → β) (f : RawProc → Bool)
    (procs : List RawProc) (b : β)
    (hb : b ∈ procs.filterMap (fun q => if f q then some (g q) else none)) :
    ∃ q ∈ procs, f q = true ∧ b = g q := by
  obtain ⟨q, hq, hif⟩ := List.mem_filterMap.mp hb
  by_cases hc : f q = true
  · rw [if_pos hc] at hif
    exact ⟨q, hq, hc, (Option.some.inj hif).symm⟩
  · rw [if_neg hc] at hif
    exact Option.noConfusion hif

/-- Sorting a singleton and truncating to one element is the identity, so
the top-CPU pick of a single candidate is that candidate. -/
theorem topCpu_singleton (m : ProcData) : topCpu [m] = [m] := by
  unfold topCpu
  rw [if_neg (by simp)]
  have hp := List.mergeSort_perm [m] (fun a b => decide (b.cpu_percent ≤ a.cpu_percent))
  rw [List.perm_singleton.mp hp]
  rfl

/-- Every member of the top-CPU pick is a candidate. -/
theorem topCpu_subset (cands : List ProcData) (r : ProcData)
    (hr : r ∈ topCpu cands) : r ∈ cands := by
  unfold topCpu at hr
  by_cases hc : cands.isEmpty = true
  · rw [if_pos hc] at hr
    exact absurd hr (List.not_mem_nil r)
  · rw [if_neg hc] at hr
    have hs := List.take_subset 1
      (cands.mergeSort (fun a b => decide (b.cpu_percent ≤ a.cpu_percent))) hr
    exact (List.mergeSort_perm cands
      (fun a b => decide (b.cpu_percent ≤ a.cpu_percent))).mem_iff.mp hs

/-- An applied result's pid is the source process's pid, whatever the
exception behaviour. -/
theorem applyOne_pid (p : ProcData) : (applyOne p).pid = p.pid := by
  cases hb : p.proc.setBehavior <;> simp [applyOne, hb]

/-- An applied result's name is the source process's display name. -/
theorem applyOne_name (p : ProcData) : (applyOne p).name = p.name := by
  cases hb : p.proc.setBehavior <;> simp [applyOne, hb]

/-- Exception-to-outcome mapping of one `set_affinity_with_debug`
iteration, by cases on the handle's behaviour. -/
theorem applyOne_cases (p : ProcData) :
    (p.proc.setBehavior = ApplyBehavior.ok →
      (applyOne p).success = true ∧ (applyOne p).error = none) ∧
    (p.proc.setBehavior = ApplyBehavior.noSuchProcess →
      (applyOne p).success = false ∧ (applyOne p).error = some MSG_GONE) ∧
    (p.proc.setBehavior = ApplyBehavior.accessDenied →
      (applyOne p).success = false ∧ (applyOne p).error = some MSG_DENIED) ∧
    (∀ m, p.proc.setBehavior = ApplyBehavior.osError m →
      (applyOne p).success = false ∧
        (applyOne p).error = some ("OS Error: " ++ m)) ∧
    (∀ ty m, p.proc.setBehavior = ApplyBehavior.otherExc ty m →
      (applyOne p).success = false ∧
        (applyOne p).error = some (ty ++ ": " ++ m)) := by
  cases hb : p.proc.setBehavior <;> simp [applyOne, hb]

/-- An OS entry whose pid is not in the successful batch is untouched by
one apply batch. -/
theorem setAffinityOS_mem (os : List (Nat × List Nat)) (pids cores : List Nat)
    (e : Nat × List Nat) (he : e ∈ os) (hp : pids.contains e.1 = false) :
    e ∈ setAffinityOS os pids cores := by
  have h1 : (fun x : Nat × List Nat =>
      if pids.contains x.1 then (x.1, cores) else x) e = e :=
    if_neg (fun hcontra => by rw [hp] at hcontra; exact Bool.noConfusion hcontra)
  have h2 := List.mem_map_of_mem
    (fun x : Nat × List Nat => if pids.contains x.1 then (x.1, cores) else x) he
  rw [h1] at h2
  exact h2

/-- An OS entry whose pid succeeds in no active group keeps its mask across
the whole active-group loop. -/
theorem applyActiveGroups_mem :
    ∀ (groups : List ActiveGroup) (os : List (Nat × List Nat))
      (e : Nat × List Nat), e ∈ os →
      (∀ g ∈ groups, (okPids g.procs).contains e.1 = false) →
      e ∈ applyActiveGroups os groups
  | [], _, _, he, _ => he
  | g :: gs, os, e, he, hall => by
    have hg := hall g (List.mem_cons_self g gs)
    have hrest : ∀ g2 ∈ gs, (okPids g2.procs).contains e.1 = false :=
      fun g2 hg2 => hall g2 (List.mem_cons_of_mem g hg2)
    have hcons : applyActiveGroups os (g :: gs) =
        applyActiveGroups
          (if !g.procs.isEmpty && !g.selector.get_cores.isEmpty then
            setAffinityOS os (okPids g.procs) g.selector.get_cores
          else os) gs := rfl
    rw [hcons]
    refine applyActiveGroups_mem gs _ e ?_ hrest
    by_cases hc : (!g.procs.isEmpty && !g.selector.get_cores.isEmpty) = true
    · rw [if_pos hc]
      exact setAffinityOS_mem os _ _ e he hg
    · rw [if_neg hc]
      exact he

/-- C1: the worked examples of the spec hold of `get_cpu_info`:
`(8,8)` gives all-`'P'` labels, `e_count = 0`, `threads_per_core = 1`;
`(16,8)` (physical < 10) gives `p_count = 16`, all `'P'`, `e_count = 0`;
`(24,16)` (physical ≥ 10) gives `p_cores = 8`, `e_cores = 8`,
`p_count = 16`, `e_count = 8`, cores 0–15 `'P'` and 16–23 `'E'`. -/
theorem get_cpu_info_examples :
    (get_cpu_info 8 8).core_types = List.replicate 8 'P' ∧
    (get_cpu_info 8 8).e_count = 0 ∧
    (get_cpu_info 8 8).threads_per_core = 1 ∧
    (get_cpu_info 16 8).p_count = 16 ∧
    (get_cpu_info 16 8).core_types = List.replicate 16 'P' ∧
    (get_cpu_info 16 8).e_count = 0 ∧
    (get_cpu_info 24 16).p_cores = 8 ∧
    (get_cpu_info 24 16).e_cores = 8 ∧
    (get_cpu_info 24 16).p_count = 16 ∧
    (get_cpu_info 24 16).e_count = 8 ∧
    (get_cpu_info 24 16).core_types =
      List.replicate 16 'P' ++ List.replicate 8 'E' := by
  decide

/-- C2 counterexample: on topology `(logical=20, physical=12)` — where
`p_count = 16` — the default selection proposed for the first group is
`[0, 19]`, the full range, not the performance range `[0, 15]` the claim
requires.  The code constructs every group's selector with the same
default (`CoreSelector.__init__`), and no planner ever reassigns it. -/
theorem default_range_counterexample :
    (get_cpu_info 20 12).p_count - 1 = 15 ∧
    (CoreSelector.init (get_cpu_info 20 12)).start = 0 ∧
    (CoreSelector.init (get_cpu_info 20 12)).end_ = 19 ∧
    (CoreSelector.init (get_cpu_info 20 12)).end_ ≠ 15 := by
  decide

/-- C2 amended: every group's default core range — the first group's, the
subsequent groups', and the catch-all "Other" group's alike — is the
unrestricted full range `[0, logical_count - 1]`; no topology-dependent
split is applied by the code. -/
theorem default_range_full (ci : CpuInfo) (h : 0 < ci.logical) :
    (CoreSelector.init ci).start = 0 ∧
    (CoreSelector.init ci).end_ = ci.logical - 1 ∧
    (CoreSelector.init ci).get_cores = List.range ci.logical := by
  refine ⟨rfl, rfl, ?_⟩
  show List.range' 0 (ci.logical - 1 + 1 - 0) = List.range ci.logical
  rw [Nat.sub_zero, Nat.sub_add_cancel h, List.range_eq_range']

/-- Witness for `default_range_full` at topology `(20, 12)`. -/
theorem default_range_full_witness :
    0 < (get_cpu_info 20 12).logical ∧
    (CoreSelector.init (get_cpu_info 20 12)).get_cores = List.range 20 :=
  ⟨by decide, (default_range_full (get_cpu_info 20 12) (by decide)).2.2⟩

/-- C6: while the background full scan has not signalled completion
(`other_discovery_done = false`), `on_apply` is a no-op: it mutates no
process's affinity and leaves the whole application state — classification,
selections and OS masks — unchanged, whatever the operator would answer. -/
theorem on_apply_blocked_before_discovery (st : AppState) (confirm : Bool)
    (h : st.other_discovery_done = false) : on_apply st confirm = st := by
  simp [on_apply, h]

/-- Witness for `on_apply_blocked_before_discovery` on a concrete state. -/
theorem on_apply_blocked_before_discovery_witness :
    (AppState.mk (get_cpu_info 8 8) false [] []
      (CoreSelector.init (get_cpu_info 8 8)) []).other_discovery_done = false ∧
    on_apply (AppState.mk (get_cpu_info 8 8) false [] []
      (CoreSelector.init (get_cpu_info 8 8)) []) true =
    AppState.mk (get_cpu_info 8 8) false [] []
      (CoreSelector.init (get_cpu_info 8 8)) [] :=
  ⟨rfl, on_apply_blocked_before_discovery _ true rfl⟩

/-- C7 counterexample: on topology `(24, 16)` with range `[16]` (a single
efficiency core) and 400 threads, the density `400/1` exceeds 300, yet the
validator emits the performance-starvation warning, not the
thread-contention warning: the starvation check runs first and shadows the
density check.  The claim that a contention warning is emitted whenever
`thread_count / cores_in_range > 300` therefore fails. -/
theorem validator_counterexample :
    ((MAX_THREADS_PER_CORE : ℚ) < mkRat 400 ([16] : List Nat).length) ∧
    validate_other_affinity (get_cpu_info 24 16) [16] 400 =
      (false, some WarningKind.starvation) ∧
    (validate_other_affinity (get_cpu_info 24 16) [16] 400).2 ≠
      some WarningKind.contention := by
  decide

/-- C7 amended: for every non-empty proposed range, the validator emits the
performance-starvation warning exactly when the topology has at least one
performance core and the range contains none; it emits the thread-contention
warning exactly when the density exceeds 300 *and* the starvation condition
does not hold (the starvation check shadows the density check); and it
accepts silently any range containing a performance core whose density is at
most 300.  Being a pure function of `(cpu_info, cores, threads)`, it mutates
neither the proposed range nor any other state. -/
theorem validator_amended (ci : CpuInfo) (cores : List Nat) (threads : Nat)
    (h : cores ≠ []) :
    ((validate_other_affinity ci cores threads).2 = some WarningKind.starvation ↔
      (has_p_core ci cores = false ∧ 0 < ci.p_count)) ∧
    ((validate_other_affinity ci cores threads).2 = some WarningKind.contention ↔
      ((MAX_THREADS_PER_CORE : ℚ) < mkRat threads cores.length ∧
        ¬(has_p_core ci cores = false ∧ 0 < ci.p_count))) ∧
    (has_p_core ci cores = true →
      mkRat threads cores.length ≤ (MAX_THREADS_PER_CORE : ℚ) →
      validate_other_affinity ci cores threads = (true, none)) := by
  have hne : cores.isEmpty = false := by
    cases cores with
    | nil => exact absurd rfl h
    | cons a t => rfl
  have hlen : 0 < cores.length := List.length_pos.mpr h
  by_cases hp : has_p_core ci cores = true
  · by_cases hd : (MAX_THREADS_PER_CORE : ℚ) < mkRat threads cores.length
    · simp [validate_other_affinity, hne, hp, hd, hlen]
    · simp [validate_other_affinity, hne, hp, hd, hlen]
  · have hp' : has_p_core ci cores = false := by
      cases hhp : has_p_core ci cores with
      | false => rfl
      | true => exact absurd hhp hp
    by_cases hpc : 0 < ci.p_count
    · simp [validate_other_affinity, hne, hp', hpc, hlen]
    · by_cases hd : (MAX_THREADS_PER_CORE : ℚ) < mkRat threads cores.length
      · simp [validate_other_affinity, hne, hp', hpc, hd, hlen]
      · simp [validate_other_affinity, hne, hp', hpc, hd, hlen]

/-- Witness for `validator_amended` on topology `(24, 16)`, range `[0]`,
100 threads: a performance core is in the range and the density is 100. -/
theorem validator_amended_witness :
    (([0] : List Nat) ≠ []) ∧
    (((validate_other_affinity (get_cpu_info 24 16) [0] 100).2 =
        some WarningKind.starvation ↔
      (has_p_core (get_cpu_info 24 16) [0] = false ∧
        0 < (get_cpu_info 24 16).p_count)) ∧
    ((validate_other_affinity (get_cpu_info 24 16) [0] 100).2 =
        some WarningKind.contention ↔
      ((MAX_THREADS_PER_CORE : ℚ) < mkRat 100 ([0] : List Nat).length ∧
        ¬(has_p_core (get_cpu_info 24 16) [0] = false ∧
          0 < (get_cpu_info 24 16).p_count))) ∧
    (has_p_core (get_cpu_info 24 16) [0] = true →
      mkRat 100 ([0] : List Nat).length ≤ (MAX_THREADS_PER_CORE : ℚ) →
      validate_other_affinity (get_cpu_info 24 16) [0] 100 = (true, none))) :=
  ⟨by decide, validator_amended (get_cpu_info 24 16) [0] 100 (by decide)⟩

/-- C10: whenever `physical ≥ 10` and `logical - physical > physical`, the
heuristic's outputs are not clamped: `e_cores = 2·physical - logical` is
negative (as is `e_count`), `p_count = 2·(logical - physical)` exceeds
`logical`, every core is labelled `'P'`, and the label list still has
exactly `logical` entries. -/
theorem get_cpu_info_unclamped (logical physical : Nat)
    (h10 : 10 ≤ physical) (hbig : physical < logical - physical) :
    (get_cpu_info logical physical).e_cores =
      2 * (physical : Int) - (logical : Int) ∧
    (get_cpu_info logical physical).e_cores < 0 ∧
    (get_cpu_info logical physical).e_count =
      (get_cpu_info logical physical).e_cores ∧
    (get_cpu_info logical physical).p_count =
      2 * ((logical : Int) - (physical : Int)) ∧
    ((logical : Int) < (get_cpu_info logical physical).p_count) ∧
    (∀ c ∈ (get_cpu_info logical physical).core_types, c = 'P') ∧
    (get_cpu_info logical physical).core_types.length = logical := by
  have hpl : physical < logical := by omega
  have h2 : 2 * physical < logical := by omega
  have h2i : 2 * (physical : Int) < (logical : Int) := by exact_mod_cast h2
  simp only [get_cpu_info, if_pos hpl, if_pos h10]
  refine ⟨by ring, by omega, by trivial, by ring, by omega, ?_, ?_⟩
  · intro c hc
    rw [List.mem_map] at hc
    obtain ⟨i, hir, hci⟩ := hc
    rw [List.mem_range] at hir
    have hii : (i : Int) < ((logical : Int) - (physical : Int)) * 2 := by
      have hil : (i : Int) < (logical : Int) := by exact_mod_cast hir
      omega
    rw [if_pos hii] at hci
    exact hci.symm
  · rw [List.length_map, List.length_range]

/-- Witness for `get_cpu_info_unclamped` at `(logical, physical) = (22, 10)`. -/
theorem get_cpu_info_unclamped_witness :
    (10 ≤ 10 ∧ 10 < 22 - 10) ∧
    ((get_cpu_info 22 10).e_cores = 2 * ((10 : Nat) : Int) - ((22 : Nat) : Int) ∧
     (get_cpu_info 22 10).e_cores < 0 ∧
     (get_cpu_info 22 10).e_count = (get_cpu_info 22 10).e_cores ∧
     (get_cpu_info 22 10).p_count =
       2 * (((22 : Nat) : Int) - ((10 : Nat) : Int)) ∧
     (((22 : Nat) : Int) < (get_cpu_info 22 10).p_count) ∧
     (∀ c ∈ (get_cpu_info 22 10).core_types, c = 'P') ∧
     (get_cpu_info 22 10).core_types.length = 22) :=
  ⟨⟨by decide, by decide⟩, get_cpu_info_unclamped 22 10 (by decide) (by decide)⟩

/-- Failure and success counts of an apply batch whose processes either
exited or succeed: failures count the exited processes, and successes plus
failures exhaust the batch. -/
theorem apply_counts (procs : List ProcData)
    (h2 : ∀ p ∈ procs, p.proc.setBehavior = ApplyBehavior.noSuchProcess ∨
      p.proc.setBehavior = ApplyBehavior.ok) :
    List.countP (fun r => !r.success) (procs.map applyOne) =
      List.countP (fun p => p.proc.setBehavior == ApplyBehavior.noSuchProcess)
        procs ∧
    List.countP (fun r => r.success) (procs.map applyOne) +
      List.countP (fun p => p.proc.setBehavior == ApplyBehavior.noSuchProcess)
        procs = procs.length := by
  induction procs with
  | nil => exact ⟨rfl, rfl⟩
  | cons a t ih =>
    obtain ⟨iht1, iht2⟩ := ih (fun p hp => h2 p (List.mem_cons_of_mem a hp))
    rcases h2 a (List.mem_cons_self a t) with hb | hb
    · have hs : (applyOne a).success = false := ((applyOne_cases a).2.1 hb).1
      have e1 : List.countP (fun r => !r.success) ((a :: t).map applyOne) =
          List.countP (fun r => !r.success) (t.map applyOne) + 1 := by
        rw [List.map_cons, List.countP_cons, hs]
        rfl
      have e2 : List.countP (fun r => r.success) ((a :: t).map applyOne) =
          List.countP (fun r => r.success) (t.map applyOne) := by
        rw [List.map_cons, List.countP_cons, hs]
        rfl
      have e3 : List.countP
          (fun p => p.proc.setBehavior == ApplyBehavior.noSuchProcess) (a :: t) =
          List.countP
            (fun p => p.proc.setBehavior == ApplyBehavior.noSuchProcess) t + 1 := by
        rw [List.countP_cons, hb]
        rfl
      rw [e1, e2, e3, List.length_cons]
      constructor <;> omega
    · have hs : (applyOne a).success = true := ((applyOne_cases a).1 hb).1
      have e1 : List.countP (fun r => !r.success) ((a :: t).map applyOne) =
          List.countP (fun r => !r.success) (t.map applyOne) := by
        rw [List.map_cons, List.countP_cons, hs]
        rfl
      have e2 : List.countP (fun r => r.success) ((a :: t).map applyOne) =
          List.countP (fun r => r.success) (t.map applyOne) + 1 := by
        rw [List.map_cons, List.countP_cons, hs]
        rfl
      have e3 : List.countP
          (fun p => p.proc.setBehavior == ApplyBehavior.noSuchProcess) (a :: t) =
          List.countP
            (fun p => p.proc.setBehavior == ApplyBehavior.noSuchProcess) t := by
        rw [List.countP_cons, hb]
        rfl
      rw [e1, e2, e3, List.length_cons]
      constructor <;> omega

/-- C3: `set_affinity_with_debug` attempts every record regardless of
earlier failures and returns exactly one outcome per record, in order,
carrying the record's pid and display name; `NoSuchProcess` maps to the
process-gone cause, `AccessDenied` to the access-denied cause, `OSError`
to the OS-rejected cause, and any other exception to the unknown cause
with the underlying fault text preserved verbatim.  When exactly one
process of the batch has exited between scan and apply and the rest
succeed, the outcome is exactly one process-gone failure and N−1
successes. -/
theorem set_affinity_with_debug_spec (procs : List ProcData) (cores : List Nat)
    (app_name : String) :
    (set_affinity_with_debug procs cores app_name).length = procs.length ∧
    (∀ (i : Nat) (hi : i < procs.length), ∃ r : ApplyResult,
      (set_affinity_with_debug procs cores app_name).get? i = some r ∧
      r.pid = (procs.get ⟨i, hi⟩).pid ∧
      r.name = (procs.get ⟨i, hi⟩).name ∧
      ((procs.get ⟨i, hi⟩).proc.setBehavior = ApplyBehavior.ok →
        r.success = true ∧ r.error = none) ∧
      ((procs.get ⟨i, hi⟩).proc.setBehavior = ApplyBehavior.noSuchProcess →
        r.success = false ∧ r.error = some MSG_GONE) ∧
      ((procs.get ⟨i, hi⟩).proc.setBehavior = ApplyBehavior.accessDenied →
        r.success = false ∧ r.error = some MSG_DENIED) ∧
      (∀ m, (procs.get ⟨i, hi⟩).proc.setBehavior = ApplyBehavior.osError m →
        r.success = false ∧ r.error = some ("OS Error: " ++ m)) ∧
      (∀ ty m, (procs.get ⟨i, hi⟩).proc.setBehavior = ApplyBehavior.otherExc ty m →
        r.success = false ∧ r.error = some (ty ++ ": " ++ m))) ∧
    ((procs.countP (fun p => p.proc.setBehavior == ApplyBehavior.noSuchProcess) = 1 ∧
      (∀ p ∈ procs, p.proc.setBehavior = ApplyBehavior.noSuchProcess ∨
        p.proc.setBehavior = ApplyBehavior.ok)) →
      (set_affinity_with_debug procs cores app_name).countP (fun r => !r.success) = 1 ∧
      (set_affinity_with_debug procs cores app_name).countP (fun r => r.success) =
        procs.length - 1 ∧
      (∀ r ∈ set_affinity_with_debug procs cores app_name,
        r.success = false → r.error = some MSG_GONE)) := by
  refine ⟨by simp [set_affinity_with_debug], ?_, ?_⟩
  · intro i hi
    refine ⟨applyOne (procs.get ⟨i, hi⟩), ?_, applyOne_pid _, applyOne_name _,
      (applyOne_cases _).1, (applyOne_cases _).2.1, (applyOne_cases _).2.2.1,
      (applyOne_cases _).2.2.2.1, (applyOne_cases _).2.2.2.2⟩
    show (procs.map applyOne).get? i = _
    rw [List.get?_map, List.get?_eq_get hi]
    rfl
  · rintro ⟨h1, h2⟩
    have hc := apply_counts procs h2
    have hfail : (set_affinity_with_debug procs cores app_name).countP
        (fun r => !r.success) = 1 := by
      show List.countP _ (procs.map applyOne) = 1
      rw [hc.1]
      exact h1
    refine ⟨hfail, ?_, ?_⟩
    · show List.countP _ (procs.map applyOne) = procs.length - 1
      have hx := hc.2
      rw [h1] at hx
      omega
    · intro r hr hfl
      obtain ⟨p, hp, rfl⟩ := List.mem_map.mp hr
      rcases h2 p hp with hb | hb
      · simp [applyOne, hb]
      · have hsucc : (applyOne p).success = true := ((applyOne_cases p).1 hb).1
        rw [hsucc] at hfl
        exact Bool.noConfusion hfl

/-- Witness for `set_affinity_with_debug_spec`: a two-process batch in
which the second process has exited (`NoSuchProcess`) and the first
succeeds gives two outcomes, one failure and 2−1 successes. -/
theorem set_affinity_with_debug_spec_witness :
    (set_affinity_with_debug [mkProcData rawJavaw, mkProcData rawJavaGone]
      [0, 1] "Minecraft").length = 2 ∧
    (set_affinity_with_debug [mkProcData rawJavaw, mkProcData rawJavaGone]
      [0, 1] "Minecraft").countP (fun r => !r.success) = 1 ∧
    (set_affinity_with_debug [mkProcData rawJavaw, mkProcData rawJavaGone]
      [0, 1] "Minecraft").countP (fun r => r.success) = 2 - 1 := by
  have h := set_affinity_with_debug_spec
    [mkProcData rawJavaw, mkProcData rawJavaGone] [0, 1] "Minecraft"
  have h4 := h.2.2 ⟨by decide, by decide⟩
  exact ⟨h.1, h4.1, h4.2.1⟩

/-- C5 counterexample: in `demoState` the catch-all selection `[16, 16]` is
a pure efficiency-core range, so the Validator warns; the operator cancels
(`confirm = false`); yet the state after `on_apply` differs from the
original: pid 100's scheduling mask was already changed to `[0..15]` by the
active-group loop, which runs before the Validator is ever consulted.  The
claim that a cancelled warning leaves every process's affinity unchanged is
therefore false. -/
theorem on_apply_cancel_counterexample :
    (validate_other_affinity demoState.cpu_info demoState.other_selector.get_cores
      (sumOtherThreads demoState.other_procs)).1 = false ∧
    (on_apply demoState false).os_affinity =
      [(100, List.range' 0 16), (200, List.range 24)] ∧
    (on_apply demoState false).os_affinity ≠ demoState.os_affinity := by
  decide

/-- C5 amended: when the background scan is complete, the catch-all batch is
non-empty and the Validator rejects the chosen "Other" range, an operator
cancel gates only the catch-all application: the resulting OS masks are
exactly those produced by the already-run active-group loop, and any
process whose pid succeeds in no active group batch — in particular every
pure catch-all process — keeps its original mask. -/
theorem on_apply_cancel_gates_other_only (st : AppState)
    (h1 : st.other_discovery_done = true)
    (h2 : st.other_procs.isEmpty = false)
    (h3 : (validate_other_affinity st.cpu_info st.other_selector.get_cores
      (sumOtherThreads st.other_procs)).1 = false) :
    (on_apply st false).os_affinity =
      applyActiveGroups st.os_affinity st.active_groups ∧
    (∀ e ∈ st.os_affinity,
      (∀ g ∈ st.active_groups, (okPids g.procs).contains e.1 = false) →
      e ∈ (on_apply st false).os_affinity) := by
  have hmain : on_apply st false =
      { st with os_affinity := applyActiveGroups st.os_affinity st.active_groups } := by
    simp [on_apply, h1, h2, h3]
  constructor
  · rw [hmain]
  · intro e he hall
    rw [hmain]
    exact applyActiveGroups_mem st.active_groups st.os_affinity e he hall

/-- Witness for `on_apply_cancel_gates_other_only` on `demoState`: the
catch-all process (pid 200) keeps its full-range mask when the operator
cancels at the warning. -/
theorem on_apply_cancel_gates_other_only_witness :
    (demoState.other_discovery_done = true ∧
      demoState.other_procs.isEmpty = false ∧
      (validate_other_affinity demoState.cpu_info demoState.other_selector.get_cores
        (sumOtherThreads demoState.other_procs)).1 = false) ∧
    (200, List.range 24) ∈ (on_apply demoState false).os_affinity :=
  ⟨⟨rfl, rfl, by decide⟩,
   (on_apply_cancel_gates_other_only demoState rfl rfl (by decide)).2
     (200, List.range 24) (by decide) (by decide)⟩

/-- The first satisfying element found by `find?` occurs no later than any
given satisfying index. -/
theorem find_first_le {α : Type} (p : α → Bool) :
    ∀ (l : List α) (i : Nat) (hi : i < l.length), p (l.get ⟨i, hi⟩) = true →
    ∃ k, ∃ hk : k < l.length, k ≤ i ∧ p (l.get ⟨k, hk⟩) = true ∧
      l.find? p = some (l.get ⟨k, hk⟩)
  | [], i, hi, _ => absurd hi (by simp)
  | a :: t, i, hi, hp => by
    cases hpa : p a with
    | true =>
      refine ⟨0, Nat.succ_pos t.length, Nat.zero_le i, hpa, ?_⟩
      rw [List.find?_cons_of_pos _ hpa]
      rfl
    | false =>
      cases i with
      | zero =>
        have hpa2 : p a = true := hp
        rw [hpa2] at hpa
        exact Bool.noConfusion hpa
      | succ n =>
        have hn : n < t.length := Nat.lt_of_succ_lt_succ hi
        have hp2 : p (t.get ⟨n, hn⟩) = true := hp
        obtain ⟨k, hk, hki, hpk, hfind⟩ := find_first_le p t n hn hp2
        refine ⟨k + 1, Nat.succ_lt_succ hk, Nat.succ_le_succ hki, hpk, ?_⟩
        rw [List.find?_cons_of_neg _ (by simp [hpa])]
        exact hfind

/-- Two distinct positions of a list whose image is duplicate-free have
distinct images. -/
theorem nodup_map_get_ne {α β : Type} (f : α → β) :
    ∀ (l : List α), (l.map f).Nodup →
    ∀ (k j : Nat) (hk : k < l.length) (hj : j < l.length), k ≠ j →
    f (l.get ⟨k, hk⟩) ≠ f (l.get ⟨j, hj⟩)
  | [], _, k, _, hk, _, _ => absurd hk (by simp)
  | a :: t, hnd, k, j, hk, hj, hkj => by
    rw [List.map_cons, List.nodup_cons] at hnd
    match k, j with
    | 0, 0 => exact absurd rfl hkj
    | 0, j2 + 1 =>
      intro he
      have hj2 : j2 < t.length := Nat.lt_of_succ_lt_succ hj
      have hmm : f (t.get ⟨j2, hj2⟩) ∈ List.map f t :=
        List.mem_map_of_mem f (List.get_mem t j2 hj2)
      have he2 : f a = f (t.get ⟨j2, hj2⟩) := he
      rw [← he2] at hmm
      exact hnd.1 hmm
    | k2 + 1, 0 =>
      intro he
      have hk2 : k2 < t.length := Nat.lt_of_succ_lt_succ hk
      have hmm : f (t.get ⟨k2, hk2⟩) ∈ List.map f t :=
        List.mem_map_of_mem f (List.get_mem t k2 hk2)
      have he2 : f (t.get ⟨k2, hk2⟩) = f a := he
      rw [he2] at hmm
      exact hnd.1 hmm
    | k2 + 1, j2 + 1 =>
      exact nodup_map_get_ne f t hnd.2 k2 j2 (Nat.lt_of_succ_lt_succ hk)
        (Nat.lt_of_succ_lt_succ hj) (fun hh => hkj (by omega))

/-- Indexing a mapped list with a default at an in-range position gives the
image of the underlying element. -/
theorem getD_map_get {α β : Type} (f : α → β) :
    ∀ (l : List α) (j : Nat) (hj : j < l.length) (d : β),
      (l.map f).getD j d = f (l.get ⟨j, hj⟩)
  | [], j, hj, _ => absurd hj (by simp)
  | _ :: _, 0, _, _ => rfl
  | _ :: t, j + 1, hj, d => getD_map_get f t j (Nat.lt_of_succ_lt_succ hj) d

/-- Left component of a true conjunction of booleans. -/
theorem band_left {a b : Bool} (h : (a && b) = true) : a = true := by
  cases a
  · exact Bool.noConfusion h
  · rfl

/-- Right component of a true conjunction of booleans. -/
theorem band_right {a b : Bool} (h : (a && b) = true) : b = true := by
  cases a
  · exact Bool.noConfusion h
  · exact h

/-- A top-CPU candidate satisfies the visibility filter. -/
theorem candidateKeep_visible (table : List (String × List String))
    (skip : List String) (current_user : Option String) (my_pid : Nat)
    (q : RawProc) (h : candidateKeep table skip current_user my_pid q = true) :
    scanVisible my_pid q = true := by
  have h1 := band_left h
  have h2 := band_left h1
  have h3 := band_left h2
  exact band_left h3

/-- A top-CPU candidate passes the ownership filter. -/
theorem candidateKeep_owner (table : List (String × List String))
    (skip : List String) (current_user : Option String) (my_pid : Nat)
    (q : RawProc) (h : candidateKeep table skip current_user my_pid q = true) :
    ownershipSkip current_user q.username = false := by
  have h1 := band_left h
  have h2 := band_right h1
  cases ho : ownershipSkip current_user q.username
  · rfl
  · rw [ho] at h2
    exact absurd h2 (by simp)

/-- A visible scanned process is not the caller's own process. -/
theorem scanVisible_pid (my_pid : Nat) (q : RawProc)
    (h : scanVisible my_pid q = true) : q.pid ≠ my_pid := by
  have h1 := band_right h
  intro hc
  rw [hc] at h1
  simp at h1

/-- A kept catch-all process's pid is not among the known pids. -/
theorem keepOther_not_known (skip : List String) (current_user : Option String)
    (known_pids : List Nat) (q : RawProc)
    (h : keepOther skip current_user known_pids q = true) :
    known_pids.contains q.pid = false := by
  have h1 := band_left h
  have h2 := band_left h1
  have h3 := band_left h2
  have h4 := band_right h3
  cases hkc : known_pids.contains q.pid
  · rfl
  · rw [hkc] at h4
    exact absurd h4 (by simp)

/-- A kept catch-all process passes the ownership filter. -/
theorem keepOther_owner (skip : List String) (current_user : Option String)
    (known_pids : List Nat) (q : RawProc)
    (h : keepOther skip current_user known_pids q = true) :
    ownershipSkip current_user q.username = false := by
  have h1 := band_right h
  cases ho : ownershipSkip current_user q.username
  · rfl
  · rw [ho] at h1
    exact absurd h1 (by simp)

/-- C4: classification tests categories in declaration order and assigns a
process to the first category with a matching pattern.  If category `i`
matches (and some later category `j` also matches), the classifier's answer
is the first matching category, at an index `k ≤ i`; it is never the name
of category `j` (category names being distinct, as dict keys are), never
the catch-all (`none`); and the process record never lands in category
`j`'s result list of the single-pass scan. -/
theorem classifier_first_match (table : List (String × List String))
    (name_lower : String) (i j : Nat) (hi : i < table.length)
    (hj : j < table.length) (hij : i < j)
    (hnd : (table.map Prod.fst).Nodup)
    (hmi : matchesCat name_lower (table.get ⟨i, hi⟩) = true)
    (_hmj : matchesCat name_lower (table.get ⟨j, hj⟩) = true) :
    (∃ k, ∃ hk : k < table.length, k ≤ i ∧
      matchesCat name_lower (table.get ⟨k, hk⟩) = true ∧
      classify1 table name_lower = some (table.get ⟨k, hk⟩).1) ∧
    classify1 table name_lower ≠ some (table.get ⟨j, hj⟩).1 ∧
    classify1 table name_lower ≠ none ∧
    (∀ (my_pid : Nat) (procs : List RawProc) (q : RawProc),
      nameLower q = name_lower →
      mkProcData q ∉ ((discoverResults table my_pid procs).getD j ("", [])).2) := by
  obtain ⟨k, hk, hki, hpk, hfind⟩ :=
    find_first_le (matchesCat name_lower) table i hi hmi
  have hcls : classify1 table name_lower = some (table.get ⟨k, hk⟩).1 := by
    unfold classify1
    rw [hfind]
    rfl
  have hkj : k ≠ j := by omega
  have hne : (table.get ⟨k, hk⟩).1 ≠ (table.get ⟨j, hj⟩).1 :=
    nodup_map_get_ne Prod.fst table hnd k j hk hj hkj
  refine ⟨⟨k, hk, hki, hpk, hcls⟩, ?_, ?_, ?_⟩
  · rw [hcls]
    intro hcontra
    exact hne (Option.some.inj hcontra)
  · rw [hcls]
    exact Option.noConfusion
  · intro my_pid procs q hql hmem
    simp only [discoverResults] at hmem
    rw [getD_map_get _ table j hj ("", [])] at hmem
    obtain ⟨q2, hq2mem, hcond, heq⟩ := mem_if_filterMap _ _ _ _ hmem
    have hq2 : q = q2 := congrArg ProcData.proc heq
    have hc2 : (classify1 table (nameLower q2) ==
        some (table.get ⟨j, hj⟩).1) = true := band_right hcond
    rw [← hq2, hql] at hc2
    have hc3 : classify1 table name_lower = some (table.get ⟨j, hj⟩).1 :=
      eq_of_beq hc2
    rw [hcls] at hc3
    exact hne (Option.some.inj hc3)

/-- Witness for `classifier_first_match`: `"javaw discord.exe"` matches the
Minecraft patterns (category 0) and the Discord pattern (category 1); it is
classified as Minecraft, never as Discord, never as catch-all, and its
record never lands in the Discord result list. -/
theorem classifier_first_match_witness :
    classify1 KNOWN_PATTERNS "javaw discord.exe" ≠ some "Discord" ∧
    classify1 KNOWN_PATTERNS "javaw discord.exe" ≠ none ∧
    mkProcData rawJD ∉ ((discoverResults KNOWN_PATTERNS 1 [rawJD]).getD 1 ("", [])).2 := by
  have h := classifier_first_match KNOWN_PATTERNS "javaw discord.exe" 0 1
    (by decide) (by decide) (by decide) (by decide) (by decide) (by decide)
  exact ⟨h.2.1, h.2.2.1, h.2.2.2 1 [rawJD] rawJD (by decide)⟩

/-- C8 counterexample: the caller runs as `python.exe` with pid 42 (a name
not in the exclusion set); its own record is enumerated by the full pass and
none of its pids are among the known pids, so `find_other_processes` — which
has no own-pid check — returns the caller's own process.  The claim that
both passes always exclude the caller's pid is therefore false for the full
pass. -/
theorem full_scan_self_counterexample :
    (find_other_processes SKIP_ALWAYS (some "me") [] [rawSelfPy]).map
      (fun r => r.pid) = [42] := by
  decide

/-- C8 amended: the fast single-pass scan always excludes the caller's own
pid from every category list and from the top-CPU pick, but the full pass
excludes a record only through its other filters — in particular, every
returned record's pid is outside the known-pid set; the full pass has no
own-pid check, so the caller can appear there (see the counterexample). -/
theorem scan_self_exclusion (table : List (String × List String))
    (skip : List String) (current_user : Option String) (my_pid : Nat)
    (known_pids : List Nat) (procs : List RawProc) :
    (∀ e ∈ (discover_all_processes_single_pass table skip current_user
        my_pid procs).1, ∀ r ∈ e.2, r.pid ≠ my_pid) ∧
    (∀ r ∈ (discover_all_processes_single_pass table skip current_user
        my_pid procs).2, r.pid ≠ my_pid) ∧
    (∀ r ∈ find_other_processes skip current_user known_pids procs,
      known_pids.contains r.pid = false) := by
  refine ⟨?_, ?_, ?_⟩
  · intro e he r hr
    simp only [discover_all_processes_single_pass, discoverResults] at he
    obtain ⟨ent, hent, hF⟩ := List.mem_map.mp he
    rw [← hF] at hr
    obtain ⟨q2, hq2, hcond, hrq⟩ := mem_if_filterMap _ _ _ _ hr
    have hv : scanVisible my_pid q2 = true := band_left hcond
    have hnp := scanVisible_pid my_pid q2 hv
    rw [hrq]
    exact hnp
  · intro r hr
    have hc := topCpu_subset
      (topCpuCandidates table skip current_user my_pid procs) r hr
    obtain ⟨q2, hq2, hcond, hrq⟩ := mem_if_filterMap _ _ _ _ hc
    have hv := candidateKeep_visible table skip current_user my_pid q2 hcond
    have hnp := scanVisible_pid my_pid q2 hv
    rw [hrq]
    exact hnp
  · intro r hr
    obtain ⟨q2, hq2, hcond, hrq⟩ := mem_if_filterMap _ _ _ _ hr
    have hk := keepOther_not_known skip current_user known_pids q2 hcond
    rw [hrq]
    exact hk

/-- Witness for `scan_self_exclusion`: with the caller at pid 42, the fast
pass's top-CPU pick is `notepad.exe` (pid 200 ≠ 42), and a full-pass record
of the caller's process has its pid outside the known-pid set `[100]`. -/
theorem scan_self_exclusion_witness :
    (mkProcData rawNotepad).pid ≠ 42 ∧
    ([100] : List Nat).contains (mkOtherProc rawSelfPy).pid = false := by
  have h := scan_self_exclusion KNOWN_PATTERNS SKIP_ALWAYS (some "me") 42
    [100] [rawNotepad, rawSelfPy]
  have hc : topCpuCandidates KNOWN_PATTERNS SKIP_ALWAYS (some "me") 42
      [rawNotepad, rawSelfPy] = [mkProcData rawNotepad] := by decide
  have hmem : mkProcData rawNotepad ∈ (discover_all_processes_single_pass
      KNOWN_PATTERNS SKIP_ALWAYS (some "me") 42 [rawNotepad, rawSelfPy]).2 := by
    show mkProcData rawNotepad ∈ topCpu (topCpuCandidates KNOWN_PATTERNS
      SKIP_ALWAYS (some "me") 42 [rawNotepad, rawSelfPy])
    rw [hc, topCpu_singleton]
    exact List.mem_singleton.mpr rfl
  exact ⟨h.2.1 (mkProcData rawNotepad) hmem,
    h.2.2 (mkOtherProc rawSelfPy) (by decide)⟩

/-- C9: when the caller's identity is resolvable (truthy) and a process's
owner identity is also resolvable and differs case-insensitively, that
process never appears in the catch-all results and is never the top-CPU
pick; and when the caller's identity is unresolvable, the ownership filter
is skipped entirely: both scan keep-conditions are independent of the
scanned process's `username` field. -/
theorem ownership_filter_excludes (table : List (String × List String))
    (skip : List String) (current_user : Option String) (my_pid : Nat)
    (known_pids : List Nat) (procs : List RawProc) (q : RawProc) :
    (truthy current_user = true → truthy q.username = true →
      (pyLower (q.username.getD "") == pyLower (current_user.getD "")) = false →
      (∀ r ∈ find_other_processes skip current_user known_pids procs,
        r.proc ≠ q) ∧
      (∀ r ∈ (discover_all_processes_single_pass table skip current_user
        my_pid procs).2, r.proc ≠ q)) ∧
    (truthy current_user = false →
      ∀ (q2 : RawProc) (v : Option String),
        keepOther skip current_user known_pids { q2 with username := v } =
          keepOther skip current_user known_pids q2 ∧
        candidateKeep table skip current_user my_pid { q2 with username := v } =
          candidateKeep table skip current_user my_pid q2) := by
  constructor
  · intro hcu hqu hne
    have hskip : ownershipSkip current_user q.username = true := by
      simp [ownershipSkip, hcu, hqu, hne]
    constructor
    · intro r hr
      obtain ⟨q2, hq2, hcond, hrq⟩ := mem_if_filterMap _ _ _ _ hr
      intro hcontra
      rw [hrq] at hcontra
      have hq2q : q2 = q := hcontra
      rw [hq2q] at hcond
      have ho := keepOther_owner skip current_user known_pids q hcond
      rw [ho] at hskip
      exact Bool.noConfusion hskip
    · intro r hr
      have hc := topCpu_subset
        (topCpuCandidates table skip current_user my_pid procs) r hr
      obtain ⟨q2, hq2, hcond, hrq⟩ := mem_if_filterMap _ _ _ _ hc
      intro hcontra
      rw [hrq] at hcontra
      have hq2q : q2 = q := hcontra
      rw [hq2q] at hcond
      have ho := candidateKeep_owner table skip current_user my_pid q hcond
      rw [ho] at hskip
      exact Bool.noConfusion hskip
  · intro hcu q2 v
    have hos : ∀ u : Option String, ownershipSkip current_user u = false := by
      intro u
      simp [ownershipSkip, hcu]
    constructor
    · simp [keepOther, nameLower, hos]
    · simp [candidateKeep, scanVisible, nameLower, hos]

/-- Witness for `ownership_filter_excludes`: with caller identity `"me"`,
the foreign-owned process (`"THEM"`) is neither the source of the returned
catch-all record nor of the top-CPU pick; and with an unresolvable caller
identity, the catch-all keep-condition ignores the username field. -/
theorem ownership_filter_excludes_witness :
    (mkOtherProc rawNotepad).proc ≠ rawForeign ∧
    (mkProcData rawNotepad).proc ≠ rawForeign ∧
    keepOther SKIP_ALWAYS none [] { rawNotepad with username := some "x" } =
      keepOther SKIP_ALWAYS none [] rawNotepad := by
  have h := ownership_filter_excludes KNOWN_PATTERNS SKIP_ALWAYS (some "me")
    42 [] [rawForeign, rawNotepad] rawForeign
  have h1 := (h.1 rfl rfl (by decide)).1 (mkOtherProc rawNotepad) (by decide)
  have hcands : topCpuCandidates KNOWN_PATTERNS SKIP_ALWAYS (some "me") 42
      [rawForeign, rawNotepad] = [mkProcData rawNotepad] := by decide
  have hmem : mkProcData rawNotepad ∈ (discover_all_processes_single_pass
      KNOWN_PATTERNS SKIP_ALWAYS (some "me") 42 [rawForeign, rawNotepad]).2 := by
    show mkProcData rawNotepad ∈ topCpu (topCpuCandidates KNOWN_PATTERNS
      SKIP_ALWAYS (some "me") 42 [rawForeign, rawNotepad])
    rw [hcands, topCpu_singleton]
    exact List.mem_singleton.mpr rfl
  have h2 := (h.1 rfl rfl (by decide)).2 (mkProcData rawNotepad) hmem
  have h3 := (ownership_filter_excludes KNOWN_PATTERNS SKIP_ALWAYS none 42
    [] [] rawForeign).2 rfl rawNotepad (some "x")
  exact ⟨h1, h2, h3.1⟩
